import Mathlib

/-!
Formal model of the recurring-questionnaire scheduler and response store of
the Senior Well-Being Analysis Tool (`project.py`, Module 5:
`turtle_based_data_entry` and its inner functions).  The SQLite tables
`survey_responses` and `question_intervals` are modelled as lists of rows in
insertion order, the SQL statements as list operations, and the
operator-supplied survey dates as proleptic-Gregorian calendar dates
(`datetime.strptime(s, "%Y-%m-%d")` subtraction `.days` becomes subtraction
of day numbers).
-/

/-- A calendar date, as parsed by `datetime.strptime(s, "%Y-%m-%d")`. -/
structure Date where
  year : Nat
  month : Nat
  day : Nat
deriving DecidableEq

/-- Day index of a date in the proleptic Gregorian calendar (the standard
civil-from-days algorithm, restricted to nonnegative years).  For two
midnight datetimes `a`, `b`, Python's `(a - b).days` equals
`a.dayNumber - b.dayNumber`. -/
def Date.dayNumber (dt : Date) : Int :=
  let y : Nat := if dt.month ≤ 2 then dt.year - 1 else dt.year
  let era : Nat := y / 400
  let yoe : Nat := y % 400
  let mp : Nat := (dt.month + 9) % 12
  let doy : Nat := (153 * mp + 2) / 5 + (dt.day - 1)
  let doe : Nat := yoe * 365 + yoe / 4 - yoe / 100 + doy
  (era * 146097 + doe : Int)

/-- Decimal rendering of `n`, left-padded with zeros to at least `w` digits
(`strftime` field padding). -/
def padNum (w : Nat) (n : Nat) : String :=
  let s := toString n
  String.mk (List.replicate (w - s.length) (Char.ofNat 48)) ++ s

/-- `strftime("%Y-%m-%d")`: the text form in which dates are stored in the
database. -/
def Date.format (dt : Date) : String :=
  padNum 4 dt.year ++ "-" ++ padNum 2 dt.month ++ "-" ++ padNum 2 dt.day

/-- One row of the `question_intervals` table
(`PRIMARY KEY (user_id, question)`). -/
structure ScheduleRow where
  user_id : String
  question : String
  last_answered_date : Date
  interval_days : Int
deriving DecidableEq

/-- One row of the append-only `survey_responses` table (the autoincrement
`id` column is the position in the list). -/
structure ResponseRow where
  user_id : String
  survey_date : Date
  question : String
  response : Int
deriving DecidableEq

/-- The persistent store `survey_data.db`: both tables, rows in insertion
(rowid) order. -/
structure Store where
  survey_responses : List ResponseRow
  question_intervals : List ScheduleRow
deriving DecidableEq

/-- `setup_database` on a fresh database file: both tables exist and are
empty. -/
def emptyStore : Store := { survey_responses := [], question_intervals := [] }

/-- `reset_survey_data`: deletes `survey_data.db` (and the export file); the
next `setup_database` starts again from empty tables. -/
def reset_survey_data (_s : Store) : Store := emptyStore

/-- The row filter `WHERE user_id = ? AND question = ?` on
`question_intervals`. -/
def keyMatches (uid q : String) (r : ScheduleRow) : Bool :=
  r.user_id == uid && r.question == q

/-- `SELECT last_answered_date FROM question_intervals WHERE user_id = ?
AND question = ?` followed by `fetchone()`: at most one row matches (primary
key) and only its `last_answered_date` column is read. -/
def fetch_last_answered (s : Store) (uid q : String) : Option Date :=
  (s.question_intervals.find? (keyMatches uid q)).map
    (fun r => r.last_answered_date)

/-- The `question_intervals` row written by `update_question_date`. -/
def mkScheduleRow (uid q : String) (d : Date) (i : Int) : ScheduleRow :=
  { user_id := uid, question := q, last_answered_date := d,
    interval_days := i }

/-- `update_question_date`: `INSERT OR REPLACE INTO question_intervals` —
any existing row for the primary key is deleted and the new row inserted;
the `conn.commit()` on the next source line makes it durable immediately. -/
def update_question_date (s : Store) (uid q : String) (interval_days : Int)
    (d : Date) : Store :=
  { s with question_intervals :=
      s.question_intervals.filter (fun r => !keyMatches uid q r) ++
        [mkScheduleRow uid q d interval_days] }

/-- `INSERT INTO survey_responses (user_id, survey_date, question, response)
VALUES (?, ?, ?, ?)`: a durable append to the history table. -/
def insert_response (s : Store) (uid : String) (d : Date) (q : String)
    (a : Int) : Store :=
  { s with survey_responses := s.survey_responses ++
      [{ user_id := uid, survey_date := d, question := q, response := a }] }

/-- The observable outcome of the due check: `Due` (the function returns
`True`), or `NotDue` together with the `days_remaining` value it reports. -/
inductive DueStatus where
  | Due : DueStatus
  | NotDue (daysRemaining : Int) : DueStatus
deriving DecidableEq

/-- `is_question_due` (source lines 558-579), keeping the reported
`days_remaining`: if no row exists for `(user_id, question)` the question is
due; otherwise `days_since_last = survey_date - last_date` in whole days and
`days_remaining = interval_days - days_since_last`; the question is not due
exactly when `days_remaining > 0`. -/
def is_question_due_status (s : Store) (uid q : String) (interval_days : Int)
    (survey_date : Date) : DueStatus :=
  match fetch_last_answered s uid q with
  | none => .Due
  | some last_date =>
    let days_since_last : Int := survey_date.dayNumber - last_date.dayNumber
    let days_remaining : Int := interval_days - days_since_last
    if 0 < days_remaining then .NotDue days_remaining else .Due

/-- The boolean actually returned by `is_question_due`. -/
def is_question_due (s : Store) (uid q : String) (interval_days : Int)
    (survey_date : Date) : Bool :=
  match is_question_due_status s uid q interval_days survey_date with
  | .Due => true
  | .NotDue _ => false

/-- The line `export_all_responses` writes for one `survey_responses` row
(`row = (id, user_id, survey_date, question, response)`). -/
def response_line (r : ResponseRow) : String :=
  "User ID: " ++ r.user_id ++ ", Survey Date: " ++ r.survey_date.format ++
    ", Question: " ++ r.question ++ ", Response: " ++ toString r.response

/-- `export_all_responses`: `SELECT * FROM survey_responses` (rowid =
insertion order) and one `file.write` per row, in order; each element of the
result is one written line. -/
def export_all_responses (s : Store) : List String :=
  s.survey_responses.foldl (fun acc r => acc ++ [response_line r]) []

/-- One entry of the static `questions_with_scales` catalog: prompt text,
recurrence interval in days, enumerated answer options. -/
structure CatalogQuestion where
  text : String
  interval : Int
  options : List String
deriving DecidableEq

/-- First catalog entry (weekly, 5 options). -/
def surveyQuestion1 : CatalogQuestion :=
  { text := "Weekly: How many hours did you spend alone last week?",
    interval := 7,
    options := ["0-20 hours", "21-40 hours", "41-80 hours",
                "81-120 hours", "121-168 hours"] }

/-- Second catalog entry (weekly, 5 options). -/
def surveyQuestion2 : CatalogQuestion :=
  { text := "Weekly: How would you rate your physical health?",
    interval := 7,
    options := ["Poor", "Fair", "Good", "Very good", "Excellent"] }

/-- Third catalog entry (weekly, 5 options). -/
def surveyQuestion3 : CatalogQuestion :=
  { text := "Weekly: How would you rate your mental health?",
    interval := 7,
    options := ["Poor", "Fair", "Good", "Very good", "Excellent"] }

/-- Fourth catalog entry (quarterly, 7 options). -/
def surveyQuestion4 : CatalogQuestion :=
  { text := "Quarterly: How often have you had face-to-face conversations in the past three months?",
    interval := 91,
    options := ["Not in the past three months", "Less than monthly",
                "Monthly", "A few times a month", "Weekly",
                "A few times a week", "Daily or almost daily"] }

/-- Fifth catalog entry (quarterly, 7 options). -/
def surveyQuestion5 : CatalogQuestion :=
  { text := "Quarterly: How often have you volunteered in the past three months?",
    interval := 91,
    options := ["Not in the past three months", "Less than monthly",
                "Monthly", "A few times a month", "Weekly",
                "A few times a week", "Daily or almost daily"] }

/-- The fixed question catalog `questions_with_scales` of `run_survey`
(a Python dict, so question texts are pairwise distinct), in iteration
order. -/
def questions_with_scales : List CatalogQuestion :=
  [surveyQuestion1, surveyQuestion2, surveyQuestion3, surveyQuestion4,
   surveyQuestion5]

/-- The per-question loop of `run_survey` (source lines 711-744): questions
that are not due are skipped; for a due question the (unbounded) input loop
eventually accepts a valid answer, records it in the in-memory `responses`
dict, and immediately upserts-and-commits the schedule row.  `ansF` is the
validated answer the operator supplies for each question (its value never
influences the store states of the loop).  Returns the store after the loop
and the answered question texts in catalog order. -/
def survey_loop (uid : String) (d : Date) :
    List CatalogQuestion → Store → Store × List String
  | [], s => (s, [])
  | q :: rest, s =>
    if is_question_due s uid q.text q.interval d then
      let s' := update_question_date s uid q.text q.interval d
      let r := survey_loop uid d rest s'
      (r.1, q.text :: r.2)
    else survey_loop uid d rest s

/-- The durable store states committed during the question loop, one after
each answered question: `update_question_date` runs `conn.commit()` per
answer (source line 590), while the `survey_responses` inserts happen and
are committed only after the loop (source lines 754-761).  Abandoning the
flow at a later prompt, or any failure there, leaves the persistent store at
one of these states (or at the initial state when nothing was answered
yet). -/
def survey_loop_states (uid : String) (d : Date) :
    List CatalogQuestion → Store → List Store
  | [], _ => []
  | q :: rest, s =>
    if is_question_due s uid q.text q.interval d then
      let s' := update_question_date s uid q.text q.interval d
      s' :: survey_loop_states uid d rest s'
    else survey_loop_states uid d rest s

/-- The effect of a completed `run_survey` on the store: the question loop,
then — only when at least one question was due (`any_questions_available`,
equivalently a non-empty `responses` dict) — the batch of
`survey_responses` inserts followed by a single commit. -/
def run_survey (s : Store) (uid : String) (d : Date) (ansF : String → Int)
    (catalog : List CatalogQuestion) : Store :=
  let r := survey_loop uid d catalog s
  if r.2.isEmpty then r.1
  else r.2.foldl (fun st q => insert_response st uid d q (ansF q)) r.1

/-- The write operations the program ever performs against the store. -/
inductive StoreOp where
  | upsert (uid q : String) (interval_days : Int) (d : Date) : StoreOp
  | append (uid : String) (d : Date) (q : String) (a : Int) : StoreOp
  | reset : StoreOp
deriving DecidableEq

/-- Apply one store operation. -/
def applyOp (s : Store) : StoreOp → Store
  | .upsert uid q i d => update_question_date s uid q i d
  | .append uid d q a => insert_response s uid d q a
  | .reset => reset_survey_data s

/-- Apply a sequence of store operations, oldest first. -/
def applyOps (s : Store) (ops : List StoreOp) : Store := ops.foldl applyOp s

namespace SHA256

/-- Reduce to a 32-bit word. -/
def m32 (x : Nat) : Nat := x % 4294967296

/-- 32-bit right rotation (inputs below `2 ^ 32`). -/
def rotr (n x : Nat) : Nat := m32 ((x >>> n) ||| (x <<< (32 - n)))

/-- Upper-case sigma-0 of the compression function. -/
def bigS0 (x : Nat) : Nat := (rotr 2 x) ^^^ (rotr 13 x) ^^^ (rotr 22 x)

/-- Upper-case sigma-1 of the compression function. -/
def bigS1 (x : Nat) : Nat := (rotr 6 x) ^^^ (rotr 11 x) ^^^ (rotr 25 x)

/-- Lower-case sigma-0 of the message schedule. -/
def smallS0 (x : Nat) : Nat := (rotr 7 x) ^^^ (rotr 18 x) ^^^ (x >>> 3)

/-- Lower-case sigma-1 of the message schedule. -/
def smallS1 (x : Nat) : Nat := (rotr 17 x) ^^^ (rotr 19 x) ^^^ (x >>> 10)

/-- Choice function (bitwise complement taken inside 32 bits). -/
def ch (x y z : Nat) : Nat := (x &&& y) ^^^ ((x ^^^ 4294967295) &&& z)

/-- Majority function. -/
def maj (x y z : Nat) : Nat := (x &&& y) ^^^ (x &&& z) ^^^ (y &&& z)

/-- The 64 round constants. -/
def K : List Nat :=
  [1116352408, 1899447441, 3049323471, 3921009573, 961987163,
   1508970993, 2453635748, 2870763221, 3624381080, 310598401,
   607225278, 1426881987, 1925078388, 2162078206, 2614888103,
   3248222580, 3835390401, 4022224774, 264347078, 604807628,
   770255983, 1249150122, 1555081692, 1996064986, 2554220882,
   2821834349, 2952996808, 3210313671, 3336571891, 3584528711,
   113926993, 338241895, 666307205, 773529912, 1294757372,
   1396182291, 1695183700, 1986661051, 2177026350, 2456956037,
   2730485921, 2820302411, 3259730800, 3345764771, 3516065817,
   3600352804, 4094571909, 275423344, 430227734, 506948616,
   659060556, 883997877, 958139571, 1322822218, 1537002063,
   1747873779, 1955562222, 2024104815, 2227730452, 2361852424,
   2428436474, 2756734187, 3204031479, 3329325298]

/-- The initial hash value. -/
def H0 : List Nat :=
  [1779033703, 3144134277, 1013904242, 2773480762, 1359893119,
   2600822924, 528734635, 1541459225]

/-- The eight big-endian bytes of the 64-bit message length. -/
def be64 (n : Nat) : List Nat :=
  [(n >>> 56) &&& 255, (n >>> 48) &&& 255, (n >>> 40) &&& 255,
   (n >>> 32) &&& 255, (n >>> 24) &&& 255, (n >>> 16) &&& 255,
   (n >>> 8) &&& 255, n &&& 255]

/-- Append the padding byte `0x80`, zero bytes up to 56 mod 64, and the
bit length. -/
def padMessage (msg : List Nat) : List Nat :=
  let L := msg.length
  let z := (120 - (L + 1) % 64) % 64
  msg ++ [128] ++ List.replicate z 0 ++ be64 (8 * L)

/-- Big-endian 32-bit words from a byte list. -/
def toWords : List Nat → List Nat
  | b0 :: b1 :: b2 :: b3 :: rest =>
    ((b0 <<< 24) ||| (b1 <<< 16) ||| (b2 <<< 8) ||| b3) :: toWords rest
  | _ => []

/-- Split a byte list into 64-byte chunks (the list length is a multiple of
64 after padding). -/
def chunksAux : Nat → List Nat → List (List Nat)
  | 0, _ => []
  | k + 1, l => l.take 64 :: chunksAux k (l.drop 64)

/-- All 64-byte chunks of a padded message. -/
def chunks64 (l : List Nat) : List (List Nat) := chunksAux (l.length / 64) l

/-- The next word of the message schedule, from the last 16 words. -/
def nextW (w : List Nat) : Nat :=
  let n := w.length
  m32 (smallS1 (w.getD (n - 2) 0) + w.getD (n - 7) 0 +
       smallS0 (w.getD (n - 15) 0) + w.getD (n - 16) 0)

/-- Extend the message schedule by `k` further words. -/
def extendW : Nat → List Nat → List Nat
  | 0, w => w
  | k + 1, w => extendW k (w ++ [nextW w])

/-- The eight working registers of the compression function. -/
structure Regs where
  a : Nat
  b : Nat
  c : Nat
  d : Nat
  e : Nat
  f : Nat
  g : Nat
  h : Nat

/-- One round of the compression function. -/
def round (r : Regs) (kw : Nat × Nat) : Regs :=
  let t1 := m32 (r.h + bigS1 r.e + ch r.e r.f r.g + kw.1 + kw.2)
  let t2 := m32 (bigS0 r.a + maj r.a r.b r.c)
  ⟨m32 (t1 + t2), r.a, r.b, r.c, m32 (r.d + t1), r.e, r.f, r.g⟩

/-- Compress one 64-byte chunk into the running hash value. -/
def compress (H : List Nat) (chunk : List Nat) : List Nat :=
  let w := extendW 48 (toWords chunk)
  let init : Regs :=
    ⟨H.getD 0 0, H.getD 1 0, H.getD 2 0, H.getD 3 0,
     H.getD 4 0, H.getD 5 0, H.getD 6 0, H.getD 7 0⟩
  let fin := (K.zip w).foldl round init
  [m32 (H.getD 0 0 + fin.a), m32 (H.getD 1 0 + fin.b),
   m32 (H.getD 2 0 + fin.c), m32 (H.getD 3 0 + fin.d),
   m32 (H.getD 4 0 + fin.e), m32 (H.getD 5 0 + fin.f),
   m32 (H.getD 6 0 + fin.g), m32 (H.getD 7 0 + fin.h)]

/-- The eight 32-bit words of the SHA-256 digest of a byte list. -/
def sha256Words (msg : List Nat) : List Nat :=
  (chunks64 (padMessage msg)).foldl compress H0

/-- Lower-case hexadecimal digit. -/
def hexDigit (n : Nat) : Char :=
  if n < 10 then Char.ofNat (48 + n) else Char.ofNat (87 + n)

/-- Eight-digit lower-case hexadecimal rendering of a 32-bit word. -/
def wordHex (n : Nat) : String :=
  String.mk
    [hexDigit ((n >>> 28) &&& 15), hexDigit ((n >>> 24) &&& 15),
     hexDigit ((n >>> 20) &&& 15), hexDigit ((n >>> 16) &&& 15),
     hexDigit ((n >>> 12) &&& 15), hexDigit ((n >>> 8) &&& 15),
     hexDigit ((n >>> 4) &&& 15), hexDigit (n &&& 15)]

/-- `hashlib.sha256(bytes).hexdigest()`. -/
def hexdigest (msg : List Nat) : String :=
  String.join ((sha256Words msg).map wordHex)

end SHA256

/-- UTF-8 bytes of one character (`str.encode()` encodes as UTF-8). -/
def utf8Bytes (c : Char) : List Nat :=
  let n := c.toNat
  if n < 128 then [n]
  else if n < 2048 then
    [192 ||| (n >>> 6), 128 ||| (n &&& 63)]
  else if n < 65536 then
    [224 ||| (n >>> 12), 128 ||| ((n >>> 6) &&& 63), 128 ||| (n &&& 63)]
  else
    [240 ||| (n >>> 18), 128 ||| ((n >>> 12) &&& 63),
     128 ||| ((n >>> 6) &&& 63), 128 ||| (n &&& 63)]

/-- `name.encode()`: the UTF-8 byte sequence of a string. -/
def encodeUTF8 (s : String) : List Nat := (s.data.map utf8Bytes).flatten

/-- `anonymize_name`: the SHA-256 hex digest of the UTF-8 encoded name. -/
def anonymize_name (name : String) : String :=
  SHA256.hexdigest (encodeUTF8 name)

/-- `find?` never succeeds on a list filtered by the negation of the
predicate. -/
lemma find?_filter_not_self {α : Type} (l : List α) (p : α → Bool) :
    (l.filter (fun r => !p r)).find? p = none := by
  rw [List.find?_eq_none]
  intro x hx
  have hm := List.mem_filter.mp hx
  simp only [Bool.not_eq_true'] at hm
  simp [hm.2]

/-- Filtering by a predicate implied by the search predicate does not change
the result of `find?`. -/
lemma find?_filter_of_imp {α : Type} (l : List α) (p f : α → Bool)
    (h : ∀ r, p r = true → f r = true) : (l.filter f).find? p = l.find? p := by
  induction l with
  | nil => rfl
  | cons a t ih =>
    cases hf : f a with
    | true =>
      rw [List.filter_cons_of_pos hf]
      cases hp : p a with
      | true => rw [List.find?_cons_of_pos _ hp, List.find?_cons_of_pos _ hp]
      | false =>
        rw [List.find?_cons_of_neg _ (by simp [hp]),
            List.find?_cons_of_neg _ (by simp [hp])]
        exact ih
    | false =>
      have hp : p a = false := by
        cases hpa : p a with
        | true => rw [h a hpa] at hf; exact absurd hf (by simp)
        | false => rfl
      rw [List.filter_cons_of_neg (by simp [hf]),
          List.find?_cons_of_neg _ (by simp [hp])]
      exact ih

/-- The upserted row matches its own key. -/
lemma keyMatches_mk_self (uid q : String) (d : Date) (i : Int) :
    keyMatches uid q (mkScheduleRow uid q d i) = true := by
  simp [keyMatches, mkScheduleRow]

/-- The upserted row does not match a different key. -/
lemma keyMatches_mk_other (uid q uid' q' : String) (d : Date) (i : Int)
    (h : uid' ≠ uid ∨ q' ≠ q) :
    keyMatches uid' q' (mkScheduleRow uid q d i) = false := by
  rcases h with h | h <;> simp [keyMatches, mkScheduleRow]
  · intro he; exact absurd he.symm h
  · intro _ hq; exact absurd hq.symm h

/-- After an upsert, the key it wrote reads back the written date. -/
lemma fetch_update_self (s : Store) (uid q : String) (i : Int) (d : Date) :
    fetch_last_answered (update_question_date s uid q i d) uid q = some d := by
  unfold fetch_last_answered update_question_date
  rw [List.find?_append, find?_filter_not_self]
  simp [keyMatches, mkScheduleRow]

/-- An upsert leaves every other key unchanged. -/
lemma fetch_update_other (s : Store) (uid q : String) (i : Int) (d : Date)
    (uid' q' : String) (h : uid' ≠ uid ∨ q' ≠ q) :
    fetch_last_answered (update_question_date s uid q i d) uid' q'
      = fetch_last_answered s uid' q' := by
  unfold fetch_last_answered update_question_date
  rw [List.find?_append]
  have hfil : (s.question_intervals.filter
      (fun r => !keyMatches uid q r)).find? (keyMatches uid' q')
      = s.question_intervals.find? (keyMatches uid' q') := by
    apply find?_filter_of_imp
    intro r hr
    simp only [keyMatches, Bool.and_eq_true, beq_iff_eq] at hr
    simp only [Bool.not_eq_true', keyMatches, Bool.and_eq_false_iff]
    rcases h with h | h
    · left; rw [hr.1]; simp; exact fun he => h he
    · right; rw [hr.2]; simp; exact fun he => h he
  rw [hfil]
  cases hres : s.question_intervals.find? (keyMatches uid' q') with
  | none => simp [List.find?, keyMatches_mk_other uid q uid' q' d i h]
  | some r => simp

/-- Unfolding of the due check when no schedule row exists. -/
lemma is_question_due_status_none (s : Store) (uid q : String) (i : Int)
    (d : Date) (h : fetch_last_answered s uid q = none) :
    is_question_due_status s uid q i d = .Due := by
  unfold is_question_due_status; rw [h]

lemma is_question_due_status_some (s : Store) (uid q : String) (i : Int)
    (d : Date) (ld : Date) (h : fetch_last_answered s uid q = some ld) :
    is_question_due_status s uid q i d
      = if 0 < i - (d.dayNumber - ld.dayNumber)
        then .NotDue (i - (d.dayNumber - ld.dayNumber)) else .Due := by
  unfold is_question_due_status; rw [h]

lemma is_question_due_eq_status (s : Store) (uid q : String) (i : Int)
    (d : Date) :
    is_question_due s uid q i d
      = (is_question_due_status s uid q i d == .Due) := by
  unfold is_question_due
  cases is_question_due_status s uid q i d with
  | Due => rfl
  | NotDue k => simp

lemma due_false_of_fetch_lt (s : Store) (uid q : String) (i : Int) (d : Date)
    (ld : Date) (hf : fetch_last_answered s uid q = some ld)
    (hlt : d.dayNumber - ld.dayNumber < i) :
    is_question_due s uid q i d = false := by
  unfold is_question_due
  rw [is_question_due_status_some s uid q i d ld hf, if_pos (by omega)]

lemma due_false_elim (s : Store) (uid q : String) (i : Int) (d : Date)
    (h : is_question_due s uid q i d = false) :
    ∃ ld, fetch_last_answered s uid q = some ld ∧
      d.dayNumber - ld.dayNumber < i := by
  cases hf : fetch_last_answered s uid q with
  | none =>
    unfold is_question_due at h
    rw [is_question_due_status_none s uid q i d hf] at h
    exact absurd h (by simp)
  | some ld =>
    refine ⟨ld, rfl, ?_⟩
    unfold is_question_due at h
    rw [is_question_due_status_some s uid q i d ld hf] at h
    by_cases hlt : 0 < i - (d.dayNumber - ld.dayNumber)
    · omega
    · rw [if_neg hlt] at h; exact absurd h (by simp)

lemma survey_loop_responses (uid : String) (d : Date)
    (cat : List CatalogQuestion) (s : Store) :
    (survey_loop uid d cat s).1.survey_responses = s.survey_responses := by
  induction cat generalizing s with
  | nil => rfl
  | cons q rest ih =>
    cases hdue : is_question_due s uid q.text q.interval d with
    | true =>
      have : (survey_loop uid d (q :: rest) s).1
          = (survey_loop uid d rest
              (update_question_date s uid q.text q.interval d)).1 := by
        simp [survey_loop, hdue]
      rw [this, ih]
      rfl
    | false =>
      have : (survey_loop uid d (q :: rest) s).1
          = (survey_loop uid d rest s).1 := by
        simp [survey_loop, hdue]
      rw [this, ih]

lemma survey_loop_fetch_untouched (uid : String) (d : Date)
    (cat : List CatalogQuestion) (s : Store) (uid' t : String)
    (h : t ∉ cat.map (fun q => q.text)) :
    fetch_last_answered (survey_loop uid d cat s).1 uid' t
      = fetch_last_answered s uid' t := by
  induction cat generalizing s with
  | nil => rfl
  | cons q rest ih =>
    simp only [List.map_cons, List.mem_cons, not_or] at h
    cases hdue : is_question_due s uid q.text q.interval d with
    | true =>
      have hl : (survey_loop uid d (q :: rest) s).1
          = (survey_loop uid d rest
              (update_question_date s uid q.text q.interval d)).1 := by
        simp [survey_loop, hdue]
      rw [hl, ih _ h.2, fetch_update_other]
      exact Or.inr h.1
    | false =>
      have hl : (survey_loop uid d (q :: rest) s).1
          = (survey_loop uid d rest s).1 := by
        simp [survey_loop, hdue]
      rw [hl]
      exact ih _ h.2
lemma survey_loop_all_due_false (uid : String) (d : Date)
    (cat : List CatalogQuestion) (s : Store)
    (hnd : (cat.map (fun q => q.text)).Nodup)
    (hpos : ∀ q ∈ cat, 0 < q.interval) :
    ∀ q ∈ cat,
      is_question_due (survey_loop uid d cat s).1 uid q.text q.interval d
        = false := by
  induction cat generalizing s with
  | nil => intro q hq; exact absurd hq (List.not_mem_nil q)
  | cons q0 rest ih =>
    simp only [List.map_cons, List.nodup_cons] at hnd
    intro q hq
    cases hdue : is_question_due s uid q0.text q0.interval d with
    | true =>
      have hl : (survey_loop uid d (q0 :: rest) s).1
          = (survey_loop uid d rest
              (update_question_date s uid q0.text q0.interval d)).1 := by
        simp [survey_loop, hdue]
      rw [hl]
      rcases List.mem_cons.mp hq with rfl | hq'
      · have hfetch : fetch_last_answered
            (survey_loop uid d rest
              (update_question_date s uid q.text q.interval d)).1 uid q.text
            = some d := by
          rw [survey_loop_fetch_untouched uid d rest _ uid q.text hnd.1]
          exact fetch_update_self s uid q.text q.interval d
        have hi := hpos q (List.mem_cons_self q rest)
        exact due_false_of_fetch_lt _ uid q.text q.interval d d hfetch (by omega)
      · exact ih _ hnd.2
          (fun q' hq'' => hpos q' (List.mem_cons_of_mem _ hq'')) q hq'
    | false =>
      have hl : (survey_loop uid d (q0 :: rest) s).1
          = (survey_loop uid d rest s).1 := by
        simp [survey_loop, hdue]
      rw [hl]
      rcases List.mem_cons.mp hq with rfl | hq'
      · obtain ⟨ld, hf, hlt⟩ := due_false_elim s uid q.text q.interval d hdue
        have hfetch : fetch_last_answered (survey_loop uid d rest s).1
            uid q.text = some ld := by
          rw [survey_loop_fetch_untouched uid d rest s uid q.text hnd.1]
          exact hf
        exact due_false_of_fetch_lt _ uid q.text q.interval d ld hfetch hlt
      · exact ih _ hnd.2
          (fun q' hq'' => hpos q' (List.mem_cons_of_mem _ hq'')) q hq'

lemma foldl_insert_intervals (uid : String) (d : Date) (ansF : String → Int)
    (l : List String) (s : Store) :
    (l.foldl (fun st q => insert_response st uid d q (ansF q))
        s).question_intervals = s.question_intervals := by
  induction l generalizing s with
  | nil => rfl
  | cons a t ih => rw [List.foldl_cons, ih]; rfl

lemma run_survey_intervals (s : Store) (uid : String) (d : Date)
    (ansF : String → Int) (catalog : List CatalogQuestion) :
    (run_survey s uid d ansF catalog).question_intervals
      = (survey_loop uid d catalog s).1.question_intervals := by
  unfold run_survey
  by_cases h : (survey_loop uid d catalog s).2.isEmpty
  · rw [if_pos h]
  · rw [if_neg h]
    exact foldl_insert_intervals uid d ansF _ _

lemma due_status_congr (s1 s2 : Store)
    (h : s1.question_intervals = s2.question_intervals)
    (uid q : String) (i : Int) (d : Date) :
    is_question_due_status s1 uid q i d
      = is_question_due_status s2 uid q i d := by
  unfold is_question_due_status fetch_last_answered
  rw [h]

lemma due_congr (s1 s2 : Store)
    (h : s1.question_intervals = s2.question_intervals)
    (uid q : String) (i : Int) (d : Date) :
    is_question_due s1 uid q i d = is_question_due s2 uid q i d := by
  unfold is_question_due
  rw [due_status_congr s1 s2 h uid q i d]
def scheduleKey (r : ScheduleRow) : String × String := (r.user_id, r.question)

lemma keysNodup_upsert (s : Store) (uid q : String) (i : Int) (d : Date)
    (h : (s.question_intervals.map scheduleKey).Nodup) :
    (((update_question_date s uid q i d).question_intervals).map
      scheduleKey).Nodup := by
  unfold update_question_date
  simp only [List.map_append]
  apply List.Nodup.append
  · exact h.sublist ((List.filter_sublist _).map scheduleKey)
  · simp
  · intro x hx1 hx2
    obtain ⟨r, hr, hxr⟩ := List.mem_map.mp hx1
    have hx : x = (uid, q) := by
      simpa [scheduleKey, mkScheduleRow] using hx2
    have hrf := (List.mem_filter.mp hr).2
    simp only [Bool.not_eq_true', keyMatches, Bool.and_eq_false_iff,
      beq_eq_false_iff_ne, ne_eq] at hrf
    have hkey : scheduleKey r = (uid, q) := hxr.trans hx
    have h1 : r.user_id = uid := congrArg Prod.fst hkey
    have h2 : r.question = q := congrArg Prod.snd hkey
    rcases hrf with hrf | hrf
    · exact hrf h1
    · exact hrf h2

lemma keysNodup_applyOp (s : Store) (op : StoreOp)
    (h : (s.question_intervals.map scheduleKey).Nodup) :
    ((applyOp s op).question_intervals.map scheduleKey).Nodup := by
  cases op with
  | upsert uid q i d => exact keysNodup_upsert s uid q i d h
  | append uid d q a => exact h
  | reset => simp [applyOp, reset_survey_data, emptyStore]

lemma keysNodup_applyOps (ops : List StoreOp) (s : Store)
    (h : (s.question_intervals.map scheduleKey).Nodup) :
    ((applyOps s ops).question_intervals.map scheduleKey).Nodup := by
  induction ops generalizing s with
  | nil => exact h
  | cons op t ih => exact ih _ (keysNodup_applyOp s op h)

lemma upsert_key_count (s : Store) (uid q : String) (i : Int) (d : Date) :
    ((update_question_date s uid q i d).question_intervals.filter
      (keyMatches uid q)).length = 1 := by
  unfold update_question_date
  simp only [List.filter_append]
  rw [List.filter_filter]
  simp [keyMatches_mk_self]

def sameKeyAndDate (r1 r2 : ScheduleRow) : Prop :=
  r1.user_id = r2.user_id ∧ r1.question = r2.question ∧
    r1.last_answered_date = r2.last_answered_date

lemma fetch_forall2 (l1 l2 : List ScheduleRow)
    (h : List.Forall₂ sameKeyAndDate l1 l2) (uid q : String) :
    (l1.find? (keyMatches uid q)).map (fun r => r.last_answered_date)
      = (l2.find? (keyMatches uid q)).map (fun r => r.last_answered_date) := by
  induction h with
  | nil => rfl
  | @cons a b l1' l2' hab hrest ih =>
    obtain ⟨h1, h2, h3⟩ := hab
    have hk : keyMatches uid q a = keyMatches uid q b := by
      unfold keyMatches; rw [h1, h2]
    cases hb : keyMatches uid q b with
    | true =>
      rw [List.find?_cons_of_pos _ (hk.trans hb), List.find?_cons_of_pos _ hb]
      simp [h3]
    | false =>
      rw [List.find?_cons_of_neg _ (by simp [hk, hb]),
          List.find?_cons_of_neg _ (by simp [hb])]
      exact ih
/-- A store holding one schedule row: user `u1`, question `Q`, last
answered 2024-01-01, stored interval 7. -/
def sampleStore : Store :=
  { survey_responses := [],
    question_intervals := [mkScheduleRow "u1" "Q" ⟨2024, 1, 1⟩ 7] }

/-- Like `sampleStore` but with an arbitrarily different stored
`interval_days` column (9999). -/
def sampleStore2 : Store :=
  { survey_responses := [],
    question_intervals := [mkScheduleRow "u1" "Q" ⟨2024, 1, 1⟩ 9999] }

/-- C1: with no prior schedule row the due check returns Due for every
as-of date; with a stored row it returns Due exactly when the elapsed whole
days (possibly negative) reach the interval, and otherwise NotDue with
daysRemaining = interval − elapsed, which is positive. -/
theorem due_check_matches_spec (s : Store) (uid q : String) (i : Int)
    (d : Date) :
    (fetch_last_answered s uid q = none →
      is_question_due_status s uid q i d = .Due) ∧
    ∀ ld : Date, fetch_last_answered s uid q = some ld →
      ((is_question_due_status s uid q i d = .Due ↔
          i ≤ d.dayNumber - ld.dayNumber) ∧
        (d.dayNumber - ld.dayNumber < i →
          is_question_due_status s uid q i d
              = .NotDue (i - (d.dayNumber - ld.dayNumber)) ∧
            0 < i - (d.dayNumber - ld.dayNumber))) := by
  refine ⟨fun h => is_question_due_status_none s uid q i d h, ?_⟩
  intro ld h
  rw [is_question_due_status_some s uid q i d ld h]
  constructor
  · by_cases hlt : 0 < i - (d.dayNumber - ld.dayNumber)
    · rw [if_pos hlt]
      exact ⟨fun hEq => absurd hEq (by simp), fun hle => by omega⟩
    · rw [if_neg hlt]
      exact ⟨fun _ => by omega, fun _ => rfl⟩
  · intro hlt
    rw [if_pos (by omega)]
    exact ⟨rfl, by omega⟩

/-- Witness for C1, the spec's concrete scenario: interval 7 days, last
answered 2024-01-01, as-of 2024-01-05 gives NotDue with 3 days remaining. -/
theorem due_check_matches_spec_witness :
    is_question_due_status sampleStore "u1" "Q" 7 ⟨2024, 1, 5⟩
      = .NotDue 3 := by
  have h := (due_check_matches_spec sampleStore "u1" "Q" 7 ⟨2024, 1, 5⟩).2
    ⟨2024, 1, 1⟩ (by rfl)
  have h2 := (h.2 (by decide)).1
  rw [h2]
  decide

/-- C4: `export_all_responses` emits exactly one text line per stored
response record, in insertion order, each formatted exactly
`User ID: <identity>, Survey Date: <YYYY-MM-DD>, Question: <text>,
Response: <integer>`; hence two records for the same identity and question
on different dates give two separate lines in insertion order, never a
merged one. -/
theorem export_one_line_per_record (s : Store) :
    export_all_responses s
      = s.survey_responses.map (fun r =>
          "User ID: " ++ r.user_id ++ ", Survey Date: " ++
            r.survey_date.format ++ ", Question: " ++ r.question ++
            ", Response: " ++ toString r.response) ∧
    (export_all_responses s).length = s.survey_responses.length := by
  have key : ∀ (l : List ResponseRow) (acc : List String),
      l.foldl (fun a r => a ++ [response_line r]) acc
        = acc ++ l.map response_line := by
    intro l
    induction l with
    | nil => intro acc; simp
    | cons r t ih => intro acc; rw [List.foldl_cons, ih]; simp
  constructor
  · unfold export_all_responses
    rw [key, List.nil_append]
    rfl
  · unfold export_all_responses
    rw [key, List.nil_append, List.length_map]

/-- C8: after the full reset every due check returns Due and no schedule
row nor response record survives. -/
theorem reset_clears_all_state (s : Store) (uid q : String) (i : Int)
    (d : Date) :
    is_question_due_status (reset_survey_data s) uid q i d = .Due ∧
    (reset_survey_data s).survey_responses = [] ∧
    (reset_survey_data s).question_intervals = [] :=
  ⟨rfl, rfl, rfl⟩

set_option maxRecDepth 100000 in
/-- Validation of the hash model against a published SHA-256 test vector. -/
lemma anonymize_name_abc :
    anonymize_name "abc"
      = "ba7816bf8f01cfea414140de5dae2223b00361a396177a9cb410ff61f20015ad" := by
  rfl

/-- C9: `anonymize_name` is a pure function of the raw name alone — it is a
function of the string argument, so equal raw names always yield the
identical identity, whatever else differs between the two invocations. -/
theorem anonymize_name_deterministic (n1 n2 : String) (h : n1 = n2) :
    anonymize_name n1 = anonymize_name n2 := by rw [h]

/-- Witness for C9 at a concrete name. -/
theorem anonymize_name_deterministic_witness :
    anonymize_name "Nayeon" = anonymize_name "Nayeon" :=
  anonymize_name_deterministic "Nayeon" "Nayeon" rfl

/-- C10: the due check never reads the stored `interval_days` column: two
stores whose schedule tables agree row-by-row on key and last-answered date
but differ arbitrarily in the stored intervals give identical due-check
results for every key, caller-supplied interval and as-of date. -/
theorem due_check_ignores_stored_interval (s1 s2 : Store)
    (h : List.Forall₂ sameKeyAndDate s1.question_intervals
      s2.question_intervals) (uid q : String) (i : Int) (d : Date) :
    is_question_due_status s1 uid q i d
      = is_question_due_status s2 uid q i d := by
  unfold is_question_due_status fetch_last_answered
  rw [fetch_forall2 _ _ h uid q]

/-- Witness for C10: stored intervals 7 versus 9999, same key and date —
identical due-check outcome. -/
theorem due_check_ignores_stored_interval_witness :
    is_question_due_status sampleStore "u1" "Q" 7 ⟨2024, 1, 5⟩
      = is_question_due_status sampleStore2 "u1" "Q" 7 ⟨2024, 1, 5⟩ :=
  due_check_ignores_stored_interval sampleStore sampleStore2
    (List.Forall₂.cons ⟨rfl, rfl, rfl⟩ List.Forall₂.nil) "u1" "Q" 7
    ⟨2024, 1, 5⟩
/-- C5: after a completed run at date `d` that answered (and committed)
every due question, every catalog question's due check for the same
identity at the same date `d` returns false — a second identical run finds
zero due questions.  Hypotheses: catalog question texts are pairwise
distinct (they are the keys of a Python dict) and every configured interval
is positive. -/
theorem second_run_no_due_questions (s : Store) (uid : String) (d : Date)
    (ansF : String → Int) (catalog : List CatalogQuestion)
    (hnd : (catalog.map (fun q => q.text)).Nodup)
    (hpos : ∀ q ∈ catalog, 0 < q.interval) :
    ∀ q ∈ catalog,
      is_question_due (run_survey s uid d ansF catalog) uid q.text
        q.interval d = false := by
  intro q hq
  rw [due_congr (run_survey s uid d ansF catalog)
    (survey_loop uid d catalog s).1 (run_survey_intervals s uid d ansF
      catalog) uid q.text q.interval d]
  exact survey_loop_all_due_false uid d catalog s hnd hpos q hq

/-- Witness for C5: the real catalog, run from the empty store on
2024-01-01; the first catalog question is no longer due at that date. -/
theorem second_run_no_due_questions_witness :
    is_question_due
      (run_survey emptyStore "u1" ⟨2024, 1, 1⟩ (fun _ => 0)
        questions_with_scales)
      "u1" "Weekly: How many hours did you spend alone last week?" 7
      ⟨2024, 1, 1⟩ = false := by
  have h := second_run_no_due_questions emptyStore "u1" ⟨2024, 1, 1⟩
    (fun _ => 0) questions_with_scales (by decide) (by decide)
  exact h surveyQuestion1 (by decide)

lemma survey_loop_all_not_due (uid : String) (d : Date)
    (cat : List CatalogQuestion) (s : Store)
    (h : ∀ q ∈ cat, is_question_due s uid q.text q.interval d = false) :
    survey_loop uid d cat s = (s, []) := by
  induction cat with
  | nil => rfl
  | cons q rest ih =>
    have hq := h q (List.mem_cons_self q rest)
    have hl : survey_loop uid d (q :: rest) s = survey_loop uid d rest s := by
      simp [survey_loop, hq]
    rw [hl]
    exact ih (fun q' hq' => h q' (List.mem_cons_of_mem _ hq'))

/-- C7: a run in which no catalog question is due writes nothing — the
store (both relations) is unchanged. -/
theorem no_due_run_leaves_store_unchanged (s : Store) (uid : String)
    (d : Date) (ansF : String → Int) (catalog : List CatalogQuestion)
    (h : ∀ q ∈ catalog, is_question_due s uid q.text q.interval d = false) :
    run_survey s uid d ansF catalog = s := by
  unfold run_survey
  rw [survey_loop_all_not_due uid d catalog s h]
  rfl

/-- The store as committed by a full first run on 2024-01-01 from a fresh
database. -/
def storeAfterFirstRun : Store :=
  run_survey emptyStore "u1" ⟨2024, 1, 1⟩ (fun _ => 0) questions_with_scales

/-- Witness for C7: re-running on the store of a completed run at the same
date changes nothing. -/
theorem no_due_run_leaves_store_unchanged_witness :
    run_survey storeAfterFirstRun "u1" ⟨2024, 1, 1⟩ (fun _ => 0)
      questions_with_scales = storeAfterFirstRun :=
  no_due_run_leaves_store_unchanged storeAfterFirstRun "u1" ⟨2024, 1, 1⟩
    (fun _ => 0) questions_with_scales (by decide)

/-- C6: starting from the empty store, any sequence of the program's store
operations leaves at most one `question_intervals` row per
`(user_id, question)` key; moreover an upsert — hence also an immediately
repeated identical upsert — always leaves exactly one row for its key. -/
theorem schedule_state_single_row_per_key (ops : List StoreOp) (s : Store)
    (uid q : String) (i : Int) (d : Date) :
    ((applyOps emptyStore ops).question_intervals.map scheduleKey).Nodup ∧
    ((update_question_date s uid q i d).question_intervals.filter
        (keyMatches uid q)).length = 1 ∧
    ((update_question_date (update_question_date s uid q i d) uid q i
        d).question_intervals.filter (keyMatches uid q)).length = 1 :=
  ⟨keysNodup_applyOps ops emptyStore (by simp [emptyStore]),
    upsert_key_count s uid q i d, upsert_key_count _ uid q i d⟩
lemma survey_loop_answered_fetch (uid : String) (d : Date)
    (cat : List CatalogQuestion) (s : Store)
    (hnd : (cat.map (fun q => q.text)).Nodup) :
    ∀ t ∈ (survey_loop uid d cat s).2,
      fetch_last_answered (survey_loop uid d cat s).1 uid t = some d := by
  induction cat generalizing s with
  | nil => intro t ht; exact absurd ht (List.not_mem_nil t)
  | cons q rest ih =>
    simp only [List.map_cons, List.nodup_cons] at hnd
    cases hdue : is_question_due s uid q.text q.interval d with
    | true =>
      have h1 : (survey_loop uid d (q :: rest) s).1
          = (survey_loop uid d rest
              (update_question_date s uid q.text q.interval d)).1 := by
        simp [survey_loop, hdue]
      have h2 : (survey_loop uid d (q :: rest) s).2
          = q.text :: (survey_loop uid d rest
              (update_question_date s uid q.text q.interval d)).2 := by
        simp [survey_loop, hdue]
      intro t ht
      rw [h2] at ht
      rw [h1]
      rcases List.mem_cons.mp ht with rfl | ht'
      · rw [survey_loop_fetch_untouched uid d rest _ uid q.text hnd.1]
        exact fetch_update_self s uid q.text q.interval d
      · exact ih _ hnd.2 t ht'
    | false =>
      have h1 : (survey_loop uid d (q :: rest) s).1
          = (survey_loop uid d rest s).1 := by simp [survey_loop, hdue]
      have h2 : (survey_loop uid d (q :: rest) s).2
          = (survey_loop uid d rest s).2 := by simp [survey_loop, hdue]
      intro t ht
      rw [h2] at ht
      rw [h1]
      exact ih _ hnd.2 t ht

/-- C3 (amended): abandoning the flow at any input prompt — with `done` the
catalog questions already processed and `pending` those not yet reached —
leaves the committed store exactly at the loop state over `done`: no
response record of this run is committed (in particular none for the
question currently being prompted); every question answered earlier in the
run keeps its committed schedule row carrying the survey date (no rollback
across questions); and the schedule state of every pending question is
untouched.  The response records of the answered questions, however, are
not yet present: they are only inserted after the whole loop completes. -/
theorem cancellation_amended_behavior (s0 : Store) (uid : String) (d : Date)
    (done pending : List CatalogQuestion)
    (hnd : ((done ++ pending).map (fun q => q.text)).Nodup) :
    (survey_loop uid d done s0).1.survey_responses = s0.survey_responses ∧
    (∀ t ∈ (survey_loop uid d done s0).2,
      fetch_last_answered (survey_loop uid d done s0).1 uid t = some d) ∧
    ∀ q ∈ pending,
      fetch_last_answered (survey_loop uid d done s0).1 uid q.text
        = fetch_last_answered s0 uid q.text := by
  rw [List.map_append, List.nodup_append] at hnd
  refine ⟨survey_loop_responses uid d done s0,
    survey_loop_answered_fetch uid d done s0 hnd.1, ?_⟩
  intro q hq
  apply survey_loop_fetch_untouched
  intro hmem
  exact hnd.2.2 hmem (List.mem_map_of_mem (fun q => q.text) hq)

/-- Witness for the amended C3: the operator answers the first two catalog
questions and abandons at the third prompt — the first question's schedule
row is committed with the survey date, no response record exists, and the
third question's schedule state is untouched. -/
theorem cancellation_amended_behavior_witness :
    (survey_loop "u1" ⟨2024, 1, 1⟩ [surveyQuestion1, surveyQuestion2]
        emptyStore).1.survey_responses = emptyStore.survey_responses ∧
    fetch_last_answered (survey_loop "u1" ⟨2024, 1, 1⟩
        [surveyQuestion1, surveyQuestion2] emptyStore).1 "u1"
        surveyQuestion1.text = some ⟨2024, 1, 1⟩ ∧
    fetch_last_answered (survey_loop "u1" ⟨2024, 1, 1⟩
        [surveyQuestion1, surveyQuestion2] emptyStore).1 "u1"
        surveyQuestion3.text
      = fetch_last_answered emptyStore "u1" surveyQuestion3.text := by
  have h := cancellation_amended_behavior emptyStore "u1" ⟨2024, 1, 1⟩
    [surveyQuestion1, surveyQuestion2]
    [surveyQuestion3, surveyQuestion4, surveyQuestion5] (by decide)
  exact ⟨h.1, h.2.1 surveyQuestion1.text (by decide),
    h.2.2 surveyQuestion3 (by decide)⟩

/-- C3 as literally stated is false on the code: at the abandon point after
answering the first two catalog questions (the operator closes the window
at the third prompt — durable state number 1 of the loop trace), the first
question was committed earlier in the same run and its Schedule State row
is present, but its Response Record is NOT present, because response
records are only inserted after the loop. -/
theorem cancellation_claim_counterexample :
    fetch_last_answered
        ((survey_loop_states "u1" ⟨2024, 1, 1⟩ questions_with_scales
          emptyStore).getD 1 emptyStore) "u1" surveyQuestion1.text
      = some ⟨2024, 1, 1⟩ ∧
    ((survey_loop_states "u1" ⟨2024, 1, 1⟩ questions_with_scales
        emptyStore).getD 1 emptyStore).survey_responses = [] := by
  decide

/-- C2 is violated by the code: `update_question_date` commits its schedule
upsert per answered question (source line 590) while the response records
are only inserted and committed after the loop (source lines 754-761), so
the durable state right after answering the first catalog question — the
first of the five mid-run commit points — holds that question's Schedule
State row, on which the due check already returns false, while no Response
Record exists at all: a mixed state observable after any failure before the
final batch insert, under which a retried run silently skips the question
whose answer was never stored. -/
theorem commit_split_mixed_state :
    (survey_loop_states "u1" ⟨2024, 1, 1⟩ questions_with_scales
        emptyStore).length = 5 ∧
    ((survey_loop_states "u1" ⟨2024, 1, 1⟩ questions_with_scales
        emptyStore).getD 0 emptyStore).survey_responses = [] ∧
    fetch_last_answered
        ((survey_loop_states "u1" ⟨2024, 1, 1⟩ questions_with_scales
          emptyStore).getD 0 emptyStore) "u1" surveyQuestion1.text
      = some ⟨2024, 1, 1⟩ ∧
    is_question_due
        ((survey_loop_states "u1" ⟨2024, 1, 1⟩ questions_with_scales
          emptyStore).getD 0 emptyStore) "u1" surveyQuestion1.text 7
        ⟨2024, 1, 1⟩ = false := by
  decide
